import Mathlib

/-!
Shallow embedding of `src/synthesized/generate_test_vectors.c` and proofs
of the specification claims about it.

Machine integers (`uint32_t`) are modelled as `Nat`, with an explicit
`% 2^32` at the one place where C unsigned arithmetic wraps around
(the unary minus in `-(crc & 1)` on line 12).  The global array
`crc32_table` (line 6) is modelled as a `List Nat`, and
`init_crc32_table` as the transformer the C function performs on that
global-array state.
-/

/-- Constant `0xEDB88320`, the reflected CRC-32 polynomial from line 12. -/
def crc32_poly : Nat := 0xEDB88320

/-- Unsigned 32-bit negation: C unary minus `-x` on a `uint32_t` value. -/
def neg32 (n : Nat) : Nat := (2 ^ 32 - n % 2 ^ 32) % 2 ^ 32

/-- One iteration of the inner loop of `init_crc32_table` (line 12):
`crc = (crc >> 1) ^ (0xEDB88320 & -(crc & 1))`. -/
def tableStep (crc : Nat) : Nat :=
  (crc >>> 1) ^^^ (crc32_poly &&& neg32 (crc &&& 1))

/-- Value stored at index `i` by `init_crc32_table` (lines 10-14):
start from `crc = i` and run the inner-loop body 8 times. -/
def tableEntry (i : Nat) : Nat := tableStep^[8] i

/-- Outer loop of `init_crc32_table` (lines 9-15): write `tableEntry i`
into slot `i` of the array, for `i = 0, …, n-1` in increasing order. -/
def initLoop (t : List Nat) : Nat → List Nat
  | 0 => t
  | n + 1 => (initLoop t n).set n (tableEntry n)

/-- Function `init_crc32_table` (lines 8-16), as a transformer of the
256-entry global-array state. -/
def init_crc32_table (t : List Nat) : List Nat := initLoop t 256

/-- Global `crc32_table` after `main` calls `init_crc32_table`
(C globals start zero-initialized, line 6). -/
def crc32_table : List Nat := init_crc32_table (List.replicate 256 0)

/-- Table index `(crc ^ data[i]) & 0xFF` computed on line 21. -/
def crcIndex (crc b : Nat) : Nat := (crc ^^^ b) &&& 0xFF

/-- Loop body of `calculate_crc32` (line 21):
`crc = (crc >> 8) ^ crc32_table[(crc ^ data[i]) & 0xFF]`. -/
def crcStep (table : List Nat) (crc b : Nat) : Nat :=
  (crc >>> 8) ^^^ table.getD (crcIndex crc b) 0

/-- Function `calculate_crc32` (lines 18-24), generalized over the table
it reads: fold the per-byte update over the input starting from
`0xFFFFFFFF`, then return `~crc` (complement inside 32 bits, i.e. XOR
with `0xFFFFFFFF`). -/
def calculate_crc32_with (table : List Nat) (data : List Nat) : Nat :=
  0xFFFFFFFF ^^^ data.foldl (crcStep table) 0xFFFFFFFF

/-- Function `calculate_crc32` (lines 18-24) reading the initialized
global table, as every call in `main` does. -/
def calculate_crc32 (data : List Nat) : Nat :=
  calculate_crc32_with crc32_table data

/-- Function `generate_hamming` (lines 27-32): sets `encoded = 0` and
returns it, ignoring its argument. -/
def generate_hamming (data : Nat) : Nat :=
  let encoded : Nat := 0
  encoded

/-- Spec-side description of the checksum loop, written from the words of
the spec for claim C1: initialize the accumulator to `0xFFFFFFFF`, then
for each byte `b` in order set
`accumulator = (accumulator >> 8) XOR table[(accumulator XOR b) & 0xFF]`,
as an explicit recursion over the byte list. -/
def specAccumLoop (table : List Nat) : Nat → List Nat → Nat
  | acc, [] => acc
  | acc, b :: rest =>
      specAccumLoop table ((acc >>> 8) ^^^ table.getD ((acc ^^^ b) &&& 0xFF) 0) rest

/-- Spec-side description of the whole checksum for claim C1: run the
accumulator loop, then return the bitwise complement of the accumulator
masked to 32 bits. -/
def specChecksum (table : List Nat) (data : List Nat) : Nat :=
  0xFFFFFFFF ^^^ specAccumLoop table 0xFFFFFFFF data

/-- Spec-side description of one table-builder iteration, written from
the words of the spec for claim C2: if the low bit of `crc` is set,
`crc = (crc >> 1) XOR 0xEDB88320`, else `crc = crc >> 1`. -/
def tableStepSpec (crc : Nat) : Nat :=
  if crc &&& 1 = 1 then (crc >>> 1) ^^^ 0xEDB88320 else crc >>> 1

/-- Spec-side table entry for claim C2: initialize `crc = i` and perform
exactly 8 iterations of the conditional update. -/
def tableEntrySpec (i : Nat) : Nat := tableStepSpec^[8] i

/-! ### Helper lemmas -/

/-- The branchless update of line 12 agrees with the conditional update,
for every accumulator value. -/
theorem tableStep_eq_tableStepSpec (crc : Nat) : tableStep crc = tableStepSpec crc := by
  unfold tableStep tableStepSpec
  rcases Nat.mod_two_eq_zero_or_one crc with h | h
  · have h0 : crc &&& 1 = 0 := by rw [Nat.and_one_is_mod, h]
    have e : crc32_poly &&& neg32 0 = 0 := by decide
    rw [h0, e, Nat.xor_zero, if_neg (by simp [h0])]
  · have h1 : crc &&& 1 = 1 := by rw [Nat.and_one_is_mod, h]
    have e : crc32_poly &&& neg32 1 = 0xEDB88320 := by decide
    rw [h1, e, if_pos rfl]

/-- The two table-entry functions agree everywhere. -/
theorem tableEntry_eq_tableEntrySpec (i : Nat) : tableEntry i = tableEntrySpec i := by
  unfold tableEntry tableEntrySpec
  rw [funext tableStep_eq_tableStepSpec]

/-- After `n ≤ t.length` iterations, the init loop has overwritten the
first `n` slots with the table entries and left the rest of `t` alone. -/
theorem initLoop_eq (t : List Nat) :
    ∀ n, n ≤ t.length → initLoop t n = ((List.range n).map tableEntry) ++ t.drop n := by
  intro n
  induction n with
  | zero => intro _; simp [initLoop]
  | succ n ih =>
    intro h
    have hn : n < t.length := h
    rw [initLoop, ih (Nat.le_of_lt hn), List.set_append_right _ _ (by simp),
      List.range_succ, List.map_append, List.append_assoc]
    simp only [List.length_map, List.length_range, Nat.sub_self]
    rw [List.drop_eq_getElem_cons hn, List.set_cons_zero]
    rfl

/-- Running `init_crc32_table` on any 256-entry starting state yields the
table of `tableEntry` values. -/
theorem init_crc32_table_eq (t : List Nat) (h : t.length = 256) :
    init_crc32_table t = (List.range 256).map tableEntry := by
  unfold init_crc32_table
  rw [initLoop_eq t 256 (by omega), List.drop_eq_nil_of_le (by omega), List.append_nil]

/-- The global table is the table of `tableEntry` values. -/
theorem crc32_table_eq : crc32_table = (List.range 256).map tableEntry :=
  init_crc32_table_eq (List.replicate 256 0) (List.length_replicate 256 0)

/-- Reading the global table at an in-range index gives `tableEntry`. -/
theorem crc32_table_getD (i : Nat) (h : i < 256) : crc32_table.getD i 0 = tableEntry i := by
  rw [crc32_table_eq, List.getD_eq_getElem?_getD, List.getElem?_map, List.getElem?_range h]
  rfl

/-- The explicit spec-side recursion is the fold performed by the code. -/
theorem specAccumLoop_eq_foldl (table : List Nat) :
    ∀ (data : List Nat) (acc : Nat),
      specAccumLoop table acc data = data.foldl (crcStep table) acc := by
  intro data
  induction data with
  | nil => intro acc; rfl
  | cons b rest ih =>
    intro acc
    rw [specAccumLoop, List.foldl_cons, ih]
    rfl

/-! ### Claim theorems -/

/-- C1: for every byte sequence, `calculate_crc32` returns exactly what
the spec's algorithm describes: start the accumulator at `0xFFFFFFFF`,
update it once per byte by `(acc >> 8) XOR table[(acc XOR b) & 0xFF]`,
and return the 32-bit complement of the final accumulator. -/
theorem calculate_crc32_matches_spec (data : List Nat) :
    calculate_crc32 data = specChecksum crc32_table data := by
  unfold calculate_crc32 calculate_crc32_with specChecksum
  rw [specAccumLoop_eq_foldl]

/-- C2: for every index `i` from 0 to 255, the entry the branchless code
of `init_crc32_table` stores at index `i` equals the result of the spec's
conditional update (8 iterations of: if the low bit is set, shift right
and XOR `0xEDB88320`, else just shift right). -/
theorem table_matches_conditional_spec (i : Nat) (h : i < 256) :
    crc32_table.getD i 0 = tableEntrySpec i := by
  rw [crc32_table_getD i h, tableEntry_eq_tableEntrySpec]

/-- Witness for C2 at the concrete index 255. -/
theorem table_matches_conditional_spec_witness :
    255 < 256 ∧ crc32_table.getD 255 0 = tableEntrySpec 255 :=
  ⟨by decide, table_matches_conditional_spec 255 (by decide)⟩

set_option maxRecDepth 10000 in
/-- C3 counterexample: `calculate_crc32` on the four zero bytes of the
little-endian representation of `0x00000000` does not return
`0xD202EF8D` (that value is the CRC32 of a single zero byte). -/
theorem crc32_four_zero_bytes_ne_claimed :
    calculate_crc32 [0, 0, 0, 0] ≠ 0xD202EF8D := by decide

set_option maxRecDepth 10000 in
/-- C3 amended: `calculate_crc32` on four zero bytes returns
`0x2144DF1C`, the standard CRC32 of a zero-filled 4-byte buffer. -/
theorem crc32_four_zero_bytes_value :
    calculate_crc32 [0, 0, 0, 0] = 0x2144DF1C := by decide

/-- C4: `calculate_crc32` accepts the empty input and returns
`~0xFFFFFFFF = 0x00000000` on it. -/
theorem crc32_empty_eq_zero : calculate_crc32 [] = 0 := by decide

/-- C5: after `init_crc32_table` runs, the table entry at index 0 is 0. -/
theorem crc32_table_entry_zero : crc32_table.getD 0 0 = 0 := by
  rw [crc32_table_getD 0 (by omega)]
  decide

/-- C6: every table index `calculate_crc32` computes via
`(crc ^ b) & 0xFF` is below 256, so each lookup into the 256-entry table
is in bounds, for every accumulator value and every input byte. -/
theorem crcIndex_lt_256 (crc b : Nat) : crcIndex crc b < 256 := by
  unfold crcIndex
  have h : (crc ^^^ b) &&& 0xFF ≤ 0xFF := Nat.and_le_right
  omega

set_option maxRecDepth 10000 in
/-- C7: there are byte sequences `d1`, `d2` with
`calculate_crc32 (d1 ++ d2) ≠ calculate_crc32 d1 XOR calculate_crc32 d2`:
CRC32 is not XOR-homomorphic over concatenation. -/
theorem crc32_not_xor_homomorphic :
    ∃ d1 d2 : List Nat,
      calculate_crc32 (d1 ++ d2) ≠ calculate_crc32 d1 ^^^ calculate_crc32 d2 :=
  ⟨[0], [0], by decide⟩

/-- C8: running `init_crc32_table` on any two 256-entry array states
yields bit-identical tables (the result does not depend on the state the
global array held before the call), and `calculate_crc32` applied twice
to the same table and input gives the same result. -/
theorem crc32_deterministic (t₁ t₂ : List Nat)
    (h₁ : t₁.length = 256) (h₂ : t₂.length = 256) :
    init_crc32_table t₁ = init_crc32_table t₂ ∧
      ∀ (table data : List Nat),
        calculate_crc32_with table data = calculate_crc32_with table data := by
  refine ⟨?_, fun _ _ => rfl⟩
  rw [init_crc32_table_eq t₁ h₁, init_crc32_table_eq t₂ h₂]

/-- Witness for C8 on two concrete 256-entry starting states. -/
theorem crc32_deterministic_witness :
    init_crc32_table (List.replicate 256 0) = init_crc32_table (List.replicate 256 7) ∧
      ∀ (table data : List Nat),
        calculate_crc32_with table data = calculate_crc32_with table data :=
  crc32_deterministic (List.replicate 256 0) (List.replicate 256 7)
    (List.length_replicate 256 0) (List.length_replicate 256 7)

/-- C9: `generate_hamming` returns the fixed value 0 for every input; it
has no input-dependent behavior. -/
theorem generate_hamming_constant (data : Nat) : generate_hamming data = 0 := rfl

/-- C10: checksums compose incrementally: the CRC of `d1 ++ d2` is the
complement of the per-byte fold over `d2` started from the accumulator
`~calculate_crc32 d1` reached after `d1`. -/
theorem crc32_incremental_composition (d1 d2 : List Nat) :
    calculate_crc32 (d1 ++ d2) =
      0xFFFFFFFF ^^^ d2.foldl (crcStep crc32_table) (0xFFFFFFFF ^^^ calculate_crc32 d1) := by
  unfold calculate_crc32 calculate_crc32_with
  rw [List.foldl_append, ← Nat.xor_assoc, Nat.xor_self, Nat.zero_xor]
